import Mathlib

/-
Shallow embedding of the gaurun FCM client library (package gcm):
the legacy message model with its validator (src/gcm/message.go), the
v1 wire-message types (src/unnamed/part_001), and the delivery client
with its per-target send loop (src/unnamed/part_000).

External collaborators are modelled as oracles passed explicitly:
the OAuth2 credential exchange is a function from the credential blob
to an auth outcome, and the HTTP transport is a function from the
index of the request to a transport outcome.  The model returns, next
to the Go return value, the trace of externally visible events (one
token exchange, one POST per issued request) so that claims about
which network calls happen can be stated.
-/

set_option autoImplicit false

namespace Gcm

/-- Left brace as a string, used when building JSON text. -/
def lb : String := "\x7b"

/-- Right brace as a string, used when building JSON text. -/
def rb : String := "\x7d"

/-- Right brace as a character. -/
def rbChar : Char := '\x7d'

/-- Notification is the legacy notification block (src/gcm/message.go). -/
structure Notification where
  Title : String
  Body : String
  ClickAction : String
  Tag : String
deriving DecidableEq

/-- Message is the legacy caller-facing message (src/gcm/message.go).
RegistrationIDs is an Option so that a nil Go slice (none) is kept
distinct from an empty one (some []).  Data models the custom payload
map with string values; none is a nil map.  TimeToLive is a Go int,
modelled as Int. -/
structure Message where
  RegistrationIDs : Option (List String)
  CollapseKey : String
  Notification : Notification
  Data : Option (List (String × String))
  DelayWhileIdle : Bool
  TimeToLive : Int
  Priority : String
  RestrictedPackageName : String
  DryRun : Bool
deriving DecidableEq

/-- Constant fcmPushPriorityHigh (src/unnamed/part_000). -/
def fcmPushPriorityHigh : String := "high"

/-- Constant fcmPushPriorityNormal (src/unnamed/part_000). -/
def fcmPushPriorityNormal : String := "normal"

/-- Constant maxRegistrationIDs (src/unnamed/part_000). -/
def maxRegistrationIDs : Nat := 1000

/-- Constant maxTimeToLive (src/unnamed/part_000). -/
def maxTimeToLive : Int := 2419200

/-- Constant FCMSendEndpoint (src/unnamed/part_000). -/
def FCMSendEndpoint : String :=
  "https://fcm.googleapis.com/v1/projects/cansukepush/messages:send"

/-- Method (m *Message) validate of src/gcm/message.go.  The receiver is
an Option so that the nil-pointer check of the source is represented.
Returns the error string of the first failing check, as in the source. -/
def validate : Option Message → Except String Unit
  | none => Except.error "the message must not be nil"
  | some m =>
    match m.RegistrationIDs with
    | none => Except.error "the message\x27s RegistrationIDs field must not be nil"
    | some ids =>
      if ids.length = 0 then
        Except.error "the message must specify at least one registration ID"
      else if ids.length > maxRegistrationIDs then
        Except.error "the message may specify at most 1000 registration IDs"
      else if m.TimeToLive < 0 ∨ maxTimeToLive < m.TimeToLive then
        Except.error "the message\x27s TimeToLive field must be an integer between 0 and 2419200 (4 weeks)"
      else if m.Priority ≠ "" ∧ m.Priority ≠ fcmPushPriorityHigh ∧ m.Priority ≠ fcmPushPriorityNormal then
        Except.error "priority must be high or normal"
      else
        Except.ok ()

/-- Targets of a possibly nil message (helper for the spec-side rules). -/
def targetsOf (om : Option Message) : Option (List String) :=
  match om with
  | none => none
  | some m => m.RegistrationIDs

/-- TimeToLive of a possibly nil message (helper for the spec-side rules). -/
def ttlOf (om : Option Message) : Int :=
  match om with
  | none => 0
  | some m => m.TimeToLive

/-- Priority of a possibly nil message (helper for the spec-side rules). -/
def priorityOf (om : Option Message) : String :=
  match om with
  | none => ""
  | some m => m.Priority

/-- Spec rule 1 of section 4.1: the message reference must not be null. -/
def specRule1 (om : Option Message) : Bool := om.isSome

/-- Spec rule 2 of section 4.1: targets must not be null. -/
def specRule2 (om : Option Message) : Bool := (targetsOf om).isSome

/-- Spec rule 3 of section 4.1: targets must contain at least one entry. -/
def specRule3 (om : Option Message) : Bool := ((targetsOf om).getD []).length ≠ 0

/-- Spec rule 4 of section 4.1: targets length must not exceed 1000. -/
def specRule4 (om : Option Message) : Bool := ((targetsOf om).getD []).length ≤ 1000

/-- Spec rule 5 of section 4.1: timeToLive must lie in [0, 2419200]. -/
def specRule5 (om : Option Message) : Bool := 0 ≤ ttlOf om ∧ ttlOf om ≤ 2419200

/-- Spec rule 6 of section 4.1: priority, if non-empty, must equal high or
normal exactly. -/
def specRule6 (om : Option Message) : Bool :=
  priorityOf om = "" ∨ priorityOf om = "high" ∨ priorityOf om = "normal"

/-- Modelled from the spec (section 4.1): the validation contract stated as
rules checked in order, first failure wins.  This is the spec-side rendering
of validate, used only to compare against the source-side definition. -/
def validateSpec (om : Option Message) : Except String Unit :=
  if ¬ specRule1 om then Except.error "the message must not be nil"
  else if ¬ specRule2 om then Except.error "the message\x27s RegistrationIDs field must not be nil"
  else if ¬ specRule3 om then Except.error "the message must specify at least one registration ID"
  else if ¬ specRule4 om then Except.error "the message may specify at most 1000 registration IDs"
  else if ¬ specRule5 om then Except.error "the message\x27s TimeToLive field must be an integer between 0 and 2419200 (4 weeks)"
  else if ¬ specRule6 om then Except.error "priority must be high or normal"
  else Except.ok ()

/-- NotificationV1 (src/unnamed/part_001): the wire-level notification,
title and body only. -/
structure NotificationV1 where
  Title : String
  Body : String
deriving DecidableEq

/-- AndroidNotification (src/unnamed/part_001). -/
structure AndroidNotification where
  ClickAction : String
  Tag : String
deriving DecidableEq

/-- Android (src/unnamed/part_001): the platform-specific block. -/
structure Android where
  Notification : AndroidNotification
  Priority : String
deriving DecidableEq

/-- MessageV1 (src/unnamed/part_001): the per-target wire message. -/
structure MessageV1 where
  Token : String
  CollapseKey : String
  Notification : NotificationV1
  Data : Option (List (String × String))
  DelayWhileIdle : Bool
  TimeToLive : Int
  Android : Android
  RestrictedPackageName : String
  DryRun : Bool
deriving DecidableEq

/-- WrappedMessage (src/unnamed/part_001): the envelope POSTed to the server. -/
structure WrappedMessage where
  Message : MessageV1
deriving DecidableEq

/-- Construction of the MessageV1 for one target, lines 94-107 of
src/unnamed/part_000 inside the loop of Client.send. -/
def translate (msg : Message) (token : String) : MessageV1 :=
  ⟨token,
   msg.CollapseKey,
   ⟨msg.Notification.Title, msg.Notification.Body⟩,
   msg.Data,
   msg.DelayWhileIdle,
   msg.TimeToLive,
   ⟨⟨msg.Notification.ClickAction, msg.Notification.Tag⟩, msg.Priority⟩,
   msg.RestrictedPackageName,
   msg.DryRun⟩

/-- Hexadecimal digit character, lower case, as used by the JSON encoder
for control-character escapes. -/
def hexDigit (n : Nat) : Char :=
  if n < 10 then Char.ofNat (48 + n) else Char.ofNat (87 + n)

/-- Escaping of one character by encoding/json (with the default HTML
escaping of the Encoder used in Client.send). -/
def escChar (c : Char) : String :=
  if c = '"' then "\\\""
  else if c = '\\' then "\\\\"
  else if c = '\n' then "\\n"
  else if c = '\r' then "\\r"
  else if c = '\t' then "\\t"
  else if c = '<' then "\\u003c"
  else if c = '>' then "\\u003e"
  else if c = '&' then "\\u0026"
  else if c.toNat < 32 then
    "\\u00" ++ String.singleton (hexDigit (c.toNat / 16)) ++ String.singleton (hexDigit (c.toNat % 16))
  else String.singleton c

/-- JSON encoding of a string value. -/
def encStr (s : String) : String :=
  "\"" ++ String.join (s.data.map escChar) ++ "\""

/-- Insertion into a key-sorted association list (encoding/json sorts map
keys before emitting a map). -/
def insortKV (p : String × String) : List (String × String) → List (String × String)
  | [] => [p]
  | q :: qs => if p.1 ≤ q.1 then p :: q :: qs else q :: insortKV p qs

/-- Key sort of an association list, as encoding/json does for maps. -/
def sortKV : List (String × String) → List (String × String)
  | [] => []
  | p :: ps => insortKV p (sortKV ps)

/-- JSON encoding of the data map (string values, keys sorted). -/
def encData (kvs : List (String × String)) : String :=
  lb ++ String.intercalate "," ((sortKV kvs).map (fun p => encStr p.1 ++ ":" ++ encStr p.2)) ++ rb

/-- JSON encoding of NotificationV1 following its struct tags: title and
body, no omitempty. -/
def encNotificationV1 (n : NotificationV1) : String :=
  lb ++ "\"title\":" ++ encStr n.Title ++ ",\"body\":" ++ encStr n.Body ++ rb

/-- JSON encoding of AndroidNotification following its struct tags:
click_action and tag carry no omitempty, so they are always emitted. -/
def encAndroidNotification (a : AndroidNotification) : String :=
  lb ++ "\"click_action\":" ++ encStr a.ClickAction ++ ",\"tag\":" ++ encStr a.Tag ++ rb

/-- JSON encoding of Android following its struct tags: the nested
notification struct is always emitted; priority has omitempty. -/
def encAndroid (a : Android) : String :=
  lb ++ "\"notification\":" ++ encAndroidNotification a.Notification
     ++ (if a.Priority = "" then "" else ",\"priority\":" ++ encStr a.Priority)
     ++ rb

/-- JSON encoding of MessageV1 following its struct tags and field order.
Fields with omitempty are dropped at their zero value; the android field
also carries omitempty, but Go never treats a struct value as empty, so
it is always emitted. -/
def encMessageV1 (m : MessageV1) : String :=
  lb ++ "\"token\":" ++ encStr m.Token
     ++ (if m.CollapseKey = "" then "" else ",\"collapse_key\":" ++ encStr m.CollapseKey)
     ++ ",\"notification\":" ++ encNotificationV1 m.Notification
     ++ (match m.Data with
         | none => ""
         | some [] => ""
         | some kvs => ",\"data\":" ++ encData kvs)
     ++ (if m.DelayWhileIdle then ",\"delay_while_idle\":true" else "")
     ++ (if m.TimeToLive = 0 then "" else ",\"time_to_live\":" ++ toString m.TimeToLive)
     ++ ",\"android\":" ++ encAndroid m.Android
     ++ (if m.RestrictedPackageName = "" then "" else ",\"restricted_package_name\":" ++ encStr m.RestrictedPackageName)
     ++ (if m.DryRun then ",\"dry_run\":true" else "")
     ++ rb

/-- JSON encoding of the WrappedMessage envelope. -/
def encWrapped (w : WrappedMessage) : String :=
  lb ++ "\"message\":" ++ encMessageV1 w.Message ++ rb

/-- Modelled from the spec: the Delivery Result (type Response of the Go
package, not under src/).  The spec describes it as the decoded,
service-defined JSON response body; in the scenario of section 8 it is the
object with a single name field. -/
structure Response where
  name : String
deriving DecidableEq

/-- Modelled from the spec: generic JSON decoding of the service response
body into a Delivery Result (the decoder applied to type Response, which is
not under src/).  Accepts the simple one-field object form of the spec
scenario; anything else fails to decode. -/
def takeName : List Char → Option (List Char)
  | [] => none
  | c :: cs =>
    if c = '"' then
      match cs with
      | [c2] => if c2 = rbChar then some [] else none
      | _ => none
    else if c = '\\' then none
    else
      match takeName cs with
      | none => none
      | some ms => some (c :: ms)

/-- Helper for decodeResponse: strip an expected literal from the front. -/
def dropLit : List Char → List Char → Option (List Char)
  | [], cs => some cs
  | _ :: _, [] => none
  | p :: ps, c :: cs => if c = p then dropLit ps cs else none

/-- Modelled from the spec: decodeResponse parses a response body of the
form of the section 8 scenario into a Response. -/
def decodeResponse (s : String) : Option Response :=
  match dropLit (lb ++ "\"name\":\"").data s.data with
  | none => none
  | some rest =>
    match takeName rest with
    | none => none
    | some mid => some ⟨String.mk mid⟩

/-- Error values returned by the client, tagged by the code path of
src/unnamed/part_000 that produced them (Go uses the untyped error
interface; the text is kept where the source formats it). -/
inductive GcmError where
  | validation (e : String)
  | auth (e : String)
  | transport (e : String)
  | protocol (e : String)
  | decodeFailure (e : String)
deriving DecidableEq

/-- Outcome of one call of the HTTP transport collaborator (c.Http.Do). -/
inductive NetResult where
  | transportFailure (e : String)
  | httpResponse (statusCode : Nat) (status : String) (body : String)
deriving DecidableEq

/-- Outcome of the OAuth2 collaborator calls inside getAcsessToken:
google.CredentialsFromJSON may fail, then TokenSource.Token may fail,
else an access token string is produced. -/
inductive AuthResult where
  | credsFailure (e : String)
  | tokenFailure (e : String)
  | token (accessToken : String)
deriving DecidableEq

/-- One outbound HTTP request as built in Client.send: POST to the client
URL with the Authorization and Content-Type headers and the encoded body. -/
structure HttpRequest where
  method : String
  url : String
  authHeader : String
  contentType : String
  body : String
deriving DecidableEq

/-- Externally visible events of one Send call, in order. -/
inductive Event where
  | tokenExchange (blob : String)
  | post (req : HttpRequest)
deriving DecidableEq

/-- Return value of Client.send: Go returns (*Response, error); reading
responses[0] of an empty slice is an index-out-of-range run-time fault,
kept as its own outcome. -/
inductive SendOutcome where
  | indexOutOfRange
  | failed (e : GcmError)
  | returned (r : Response)
deriving DecidableEq

/-- Client (src/unnamed/part_000); the HTTP transport handle is modelled
as the oracle argument of send. -/
structure Client where
  ApiKey : String
  URL : String
deriving DecidableEq

/-- Function getAcsessToken of src/unnamed/part_000 (source spelling kept),
over the auth oracle: wraps the collaborator failures exactly as the
source formats them and returns the access token otherwise. -/
def getAcsessToken (auth : String → AuthResult) (blob : String) : Except String String :=
  match auth blob with
  | AuthResult.credsFailure e => Except.error ("error getting credentials: " ++ e)
  | AuthResult.tokenFailure e => Except.error ("error getting token: " ++ e)
  | AuthResult.token t => Except.ok t

/-- The request built for one target in Client.send: POST to c.URL, the
two added headers, and the body written by encoder.Encode (the JSON
encoding of the wrapped message followed by a newline; the transport
drains the shared buffer on each iteration). -/
def buildRequest (url tok : String) (msg : Message) (target : String) : HttpRequest :=
  ⟨"POST", url, "Bearer " ++ tok, "application/json", encWrapped ⟨translate msg target⟩ ++ "\n"⟩

/-- The per-target loop of Client.send (lines 93-148 of
src/unnamed/part_000), over the remaining targets and the index of the
next request.  Returns the issued POST events and either the first error
(aborting the loop, discarding collected results) or the list of decoded
responses, one per target, in order. -/
def sendLoop (url tok : String) (msg : Message) (net : Nat → NetResult) :
    List String → Nat → List Event × Except GcmError (List Response)
  | [], _ => ([], Except.ok [])
  | t :: ts, i =>
    let req := buildRequest url tok msg t
    match net i with
    | NetResult.transportFailure e => ([Event.post req], Except.error (GcmError.transport e))
    | NetResult.httpResponse code status body =>
      if code ≠ 200 then
        ([Event.post req],
         Except.error (GcmError.protocol ("invalid status code " ++ toString code ++ ": " ++ status)))
      else
        match decodeResponse body with
        | none => ([Event.post req], Except.error (GcmError.decodeFailure "response body decode failed"))
        | some r =>
          let rest := sendLoop url tok msg net ts (i + 1)
          (Event.post req :: rest.1,
           match rest.2 with
           | Except.error e => Except.error e
           | Except.ok rs => Except.ok (r :: rs))

/-- Method (c *Client) send of src/unnamed/part_000: acquire the token,
run the per-target loop, and return a pointer to the first collected
response.  An empty collected slice makes responses[0] an
index-out-of-range fault. -/
def send (c : Client) (msg : Message) (blob : String) (auth : String → AuthResult)
    (net : Nat → NetResult) : List Event × SendOutcome :=
  match getAcsessToken auth blob with
  | Except.error e => ([Event.tokenExchange blob], SendOutcome.failed (GcmError.auth e))
  | Except.ok tok =>
    let res := sendLoop c.URL tok msg net (msg.RegistrationIDs.getD []) 0
    (Event.tokenExchange blob :: res.1,
     match res.2 with
     | Except.error e => SendOutcome.failed e
     | Except.ok [] => SendOutcome.indexOutOfRange
     | Except.ok (r :: _) => SendOutcome.returned r)

/-- Method (c *Client) Send of src/unnamed/part_000: validate, then call
send.  The nil-receiver branch is spelled out because validate performs
the nil check as its first rule; on any validation failure no event is
produced. -/
def Send (c : Client) (om : Option Message) (blob : String) (auth : String → AuthResult)
    (net : Nat → NetResult) : List Event × SendOutcome :=
  match om with
  | none => ([], SendOutcome.failed (GcmError.validation "the message must not be nil"))
  | some m =>
    match validate (some m) with
    | Except.error e => ([], SendOutcome.failed (GcmError.validation e))
    | Except.ok _ => send c m blob auth net

/-- A delivery at index i succeeds: the transport yields status 200 with a
decodable body. -/
def delivOkB (net : Nat → NetResult) (i : Nat) : Bool :=
  match net i with
  | NetResult.transportFailure _ => false
  | NetResult.httpResponse code _ bd => code = 200 && (decodeResponse bd).isSome

/-- The decoded response at index i, when the transport yielded a response. -/
def decodedAt (net : Nat → NetResult) (i : Nat) : Option Response :=
  match net i with
  | NetResult.transportFailure _ => none
  | NetResult.httpResponse _ _ bd => decodeResponse bd

/-- The list of results the loop collects for n all-successful deliveries. -/
def collectedResults (net : Nat → NetResult) (n : Nat) : List Response :=
  (List.range n).map (fun j => (decodedAt net j).getD ⟨""⟩)

/-- Recognizer of a validation-failure outcome. -/
def isValidationFailure (o : SendOutcome) : Bool :=
  match o with
  | SendOutcome.failed (GcmError.validation _) => true
  | _ => false

/-- A validation failure makes Send return the validation error with an
empty event trace. -/
lemma send_of_validate_error (c : Client) (om : Option Message) (blob : String)
    (auth : String → AuthResult) (net : Nat → NetResult) (e : String)
    (h : validate om = Except.error e) :
    Send c om blob auth net = ([], SendOutcome.failed (GcmError.validation e)) := by
  cases om with
  | none =>
    rw [validate] at h
    cases h
    rfl
  | some m =>
    rw [Send, h]

/-- When validation succeeds the target list is a non-nil, non-empty slice. -/
lemma validate_ok_ids (m : Message) (h : validate (some m) = Except.ok ()) :
    ∃ x xs, m.RegistrationIDs = some (x :: xs) := by
  rw [validate] at h
  cases hids : m.RegistrationIDs with
  | none => rw [hids] at h; cases h
  | some ids =>
    rw [hids] at h
    cases ids with
    | nil => simp at h
    | cons x xs => exact ⟨x, xs, rfl⟩

/-- All-success run of the per-target loop: one POST per remaining target,
in target order, and the decoded responses are collected one per target. -/
lemma sendLoop_allOk (url tok : String) (m : Message) (net : Nat → NetResult) :
    ∀ (ts : List String) (i : Nat),
      (∀ j, j < ts.length → delivOkB net (i + j) = true) →
      sendLoop url tok m net ts i =
        (ts.map (fun t => Event.post (buildRequest url tok m t)),
         Except.ok ((List.range ts.length).map (fun j => (decodedAt net (i + j)).getD ⟨""⟩)))
  | [], i, _ => by simp [sendLoop]
  | t :: ts, i, h => by
    have h0 : delivOkB net i = true := by
      have := h 0 (by simp)
      rwa [Nat.add_zero] at this
    cases hni : net i with
    | transportFailure e => rw [delivOkB, hni] at h0; simp at h0
    | httpResponse code st bd =>
      rw [delivOkB, hni] at h0
      simp only [Bool.and_eq_true, decide_eq_true_eq, Option.isSome_iff_exists] at h0
      obtain ⟨hcode, r, hr⟩ := h0
      subst hcode
      have ih := sendLoop_allOk url tok m net ts (i + 1) (fun j hj => by
        have hj1 := h (j + 1) (by simpa using Nat.succ_lt_succ hj)
        rwa [show i + (j + 1) = i + 1 + j by omega] at hj1)
      rw [sendLoop, hni]
      simp only [if_neg (by simp : ¬ (200 ≠ 200)), hr, ih]
      refine congrArg₂ Prod.mk ?_ ?_
      · rw [List.map_cons]
      · rw [List.length_cons, List.range_succ_eq_map, List.map_cons, List.map_map]
        simp only [Nat.add_zero, decodedAt, hni, hr, Option.getD_some]
        refine congrArg (fun l => Except.ok (r :: l)) ?_
        apply List.map_congr_left
        intro j _
        simp only [Function.comp]
        rw [show i + 1 + j = i + (j + 1) by omega]

/-- A non-200 status at relative index k, after k successful deliveries,
stops the loop at the failing target: exactly (k + 1) POSTs were issued
and the protocol error is returned, discarding all collected results. -/
lemma sendLoop_failAt (url tok : String) (m : Message) (net : Nat → NetResult) :
    ∀ (k : Nat) (ts : List String) (i : Nat), k < ts.length →
      (∀ j, j < k → delivOkB net (i + j) = true) →
      ∀ (code : Nat) (st bd : String),
        net (i + k) = NetResult.httpResponse code st bd → code ≠ 200 →
        sendLoop url tok m net ts i =
          ((ts.take (k + 1)).map (fun t => Event.post (buildRequest url tok m t)),
           Except.error (GcmError.protocol ("invalid status code " ++ toString code ++ ": " ++ st)))
  | 0, ts, i, hk, _, code, st, bd, hbad, hcode => by
    cases ts with
    | nil => simp at hk
    | cons t ts =>
      rw [Nat.add_zero] at hbad
      rw [sendLoop, hbad]
      simp only [if_pos hcode]
      rfl
  | k + 1, ts, i, hk, hpre, code, st, bd, hbad, hcode => by
    cases ts with
    | nil => simp at hk
    | cons t ts =>
      have h0 : delivOkB net i = true := by
        have := hpre 0 (by omega)
        rwa [Nat.add_zero] at this
      cases hni : net i with
      | transportFailure e => rw [delivOkB, hni] at h0; simp at h0
      | httpResponse c0 st0 bd0 =>
        rw [delivOkB, hni] at h0
        simp only [Bool.and_eq_true, decide_eq_true_eq, Option.isSome_iff_exists] at h0
        obtain ⟨hc0, r, hr⟩ := h0
        subst hc0
        have ih := sendLoop_failAt url tok m net k ts (i + 1)
          (by simpa using Nat.lt_of_succ_lt_succ hk)
          (fun j hj => by
            have hj1 := hpre (j + 1) (by omega)
            rwa [show i + (j + 1) = i + 1 + j by omega] at hj1)
          code st bd
          (by rwa [show i + 1 + k = i + (k + 1) by omega]) hcode
        rw [sendLoop, hni]
        simp only [if_neg (by simp : ¬ (200 ≠ 200)), hr, ih]
        rfl

/-- The loop never returns an ok empty result list on a non-empty target
list: the head target contributes a response or an error. -/
lemma sendLoop_ok_ne_nil (url tok : String) (m : Message) (net : Nat → NetResult)
    (t : String) (ts : List String) (i : Nat) (rs : List Response)
    (h : (sendLoop url tok m net (t :: ts) i).2 = Except.ok rs) : rs ≠ [] := by
  rw [sendLoop] at h
  cases hni : net i with
  | transportFailure e => rw [hni] at h; simp at h
  | httpResponse code st bd =>
    rw [hni] at h
    by_cases hc : code ≠ 200
    · simp only [if_pos hc] at h
      simp at h
    · simp only [if_neg hc] at h
      cases hd : decodeResponse bd with
      | none => rw [hd] at h; simp at h
      | some r =>
        rw [hd] at h
        simp only at h
        cases hrest : (sendLoop url tok m net ts (i + 1)).2 with
        | error e => rw [hrest] at h; simp at h
        | ok rs2 =>
          rw [hrest] at h
          simp only [Except.ok.injEq] at h
          subst h
          simp

/-- A message used in witnesses: one target, valid fields. -/
def wMsg : Message :=
  ⟨some ["tok1"], "", ⟨"Hi", "there", "", ""⟩, none, false, 0, "high", "", false⟩

/-- An always-succeeding auth oracle used in witnesses. -/
def wAuth : String → AuthResult := fun _ => AuthResult.token "tk"

/-- A response body used in witnesses. -/
def wBody : String := "\x7b\"name\":\"projects/x/messages/1\"\x7d"

/-- An all-success transport oracle used in witnesses. -/
def wNet : Nat → NetResult := fun _ => NetResult.httpResponse 200 "200 OK" wBody

/-- Claim C5: a message with nil or empty targets (and in general any
message failing validation) makes send return the validation error with
zero network calls: no token exchange and no POST appears in the event
trace. -/
theorem C5_validation_failure_no_network :
    (∀ (c : Client) (om : Option Message) (blob : String) (auth : String → AuthResult)
        (net : Nat → NetResult) (e : String),
        validate om = Except.error e →
        Send c om blob auth net = ([], SendOutcome.failed (GcmError.validation e))) ∧
    (∀ m : Message, m.RegistrationIDs = none →
        validate (some m) =
          Except.error "the message\x27s RegistrationIDs field must not be nil") ∧
    (∀ m : Message, m.RegistrationIDs = some [] →
        validate (some m) =
          Except.error "the message must specify at least one registration ID") := by
  refine ⟨fun c om blob auth net e h => send_of_validate_error c om blob auth net e h, ?_, ?_⟩
  · intro m h
    simp only [validate, h]
  · intro m h
    simp only [validate, h]
    simp

/-- Witness for claim C5 at concrete inputs. -/
theorem C5_witness :
    Send ⟨"k", "u"⟩ (some ⟨none, "", ⟨"", "", "", ""⟩, none, false, 0, "", "", false⟩)
        "b" wAuth wNet =
      ([], SendOutcome.failed
        (GcmError.validation "the message\x27s RegistrationIDs field must not be nil")) ∧
    validate (some ⟨some [], "", ⟨"", "", "", ""⟩, none, false, 0, "", "", false⟩) =
      Except.error "the message must specify at least one registration ID" := by
  constructor
  · exact C5_validation_failure_no_network.1 _ _ _ _ _ _
      (C5_validation_failure_no_network.2.1 _ rfl)
  · exact C5_validation_failure_no_network.2.2 _ rfl

/-- Claim C6: for a validated message, a failing credential exchange makes
send return the auth error; the event trace holds the token exchange and
no POST, so the per-target loop was never entered. -/
theorem C6_auth_failure_no_posts (c : Client) (m : Message) (blob : String)
    (auth : String → AuthResult) (net : Nat → NetResult) (e : String)
    (hval : validate (some m) = Except.ok ())
    (hauth : getAcsessToken auth blob = Except.error e) :
    Send c (some m) blob auth net =
      ([Event.tokenExchange blob], SendOutcome.failed (GcmError.auth e)) := by
  rw [Send, hval, send, hauth]

/-- Witness for claim C6 at concrete inputs. -/
theorem C6_witness :
    Send ⟨"k", "u"⟩ (some wMsg) "b" (fun _ => AuthResult.credsFailure "bad blob") wNet =
      ([Event.tokenExchange "b"],
       SendOutcome.failed (GcmError.auth ("error getting credentials: " ++ "bad blob"))) :=
  C6_auth_failure_no_posts _ wMsg "b" _ wNet _ rfl rfl

/-- Claim C7: validate agrees with the spec-side rendering of the six
rules checked in order with first failure winning, and returns ok exactly
when all six rules hold.  Being a Lean function of the message value, it
is pure and deterministic by construction. -/
theorem C7_validate_order_and_rules : ∀ om : Option Message,
    validate om = validateSpec om ∧
    (validate om = Except.ok () ↔
      (specRule1 om && specRule2 om && specRule3 om && specRule4 om &&
       specRule5 om && specRule6 om) = true) := by
  have hspec : ∀ om : Option Message,
      validateSpec om = Except.ok () ↔
        (specRule1 om && specRule2 om && specRule3 om && specRule4 om &&
         specRule5 om && specRule6 om) = true := by
    intro om
    rw [validateSpec]
    split_ifs with h1 h2 h3 h4 h5 h6 <;> simp_all
  intro om
  have heq : validate om = validateSpec om := by
    cases om with
    | none => rfl
    | some m =>
      cases hids : m.RegistrationIDs with
      | none =>
        simp [validate, validateSpec, specRule1, specRule2, specRule3, specRule4,
          specRule5, specRule6, targetsOf, hids]
      | some ids =>
        simp only [validate, validateSpec, specRule1, specRule2, specRule3, specRule4,
          specRule5, specRule6, targetsOf, ttlOf, priorityOf, hids, Option.isSome_some,
          Option.getD_some, maxRegistrationIDs, maxTimeToLive, fcmPushPriorityHigh,
          fcmPushPriorityNormal, decide_eq_true_eq, not_true, not_not, not_le, not_lt,
          not_and_or, not_or, Bool.not_eq_true, if_false, Nat.not_lt]
  exact ⟨heq, heq ▸ hspec om⟩

/-- Claim C9: the translated wire message puts clickAction and tag only in
the platform-specific android block next to the top-level priority, while
the top-level notification holds exactly title and body; translation is
deterministic. -/
theorem C9_translation_fields :
    (∀ (m : Message) (t : String),
      (translate m t).Notification = ⟨m.Notification.Title, m.Notification.Body⟩ ∧
      (translate m t).Android =
        ⟨⟨m.Notification.ClickAction, m.Notification.Tag⟩, m.Priority⟩) ∧
    (∀ (m1 m2 : Message) (t1 t2 : String),
      m1 = m2 → t1 = t2 → translate m1 t1 = translate m2 t2) :=
  ⟨fun _ _ => ⟨rfl, rfl⟩, fun _ _ _ _ h1 h2 => by rw [h1, h2]⟩

/-- Witness for claim C9 at concrete inputs. -/
theorem C9_witness :
    (translate wMsg "tok1").Notification = ⟨"Hi", "there"⟩ ∧
    (translate wMsg "tok1").Android = ⟨⟨"", ""⟩, "high"⟩ ∧
    translate wMsg "tok1" = translate wMsg "tok1" :=
  ⟨(C9_translation_fields.1 wMsg "tok1").1,
   (C9_translation_fields.1 wMsg "tok1").2,
   C9_translation_fields.2 wMsg wMsg "tok1" "tok1" rfl rfl⟩

/-- A validation error makes Send report a validation failure with an
empty trace (both observations packaged for the numeric-bounds claim). -/
lemma send_validation_failure (c : Client) (m : Message) (blob : String)
    (auth : String → AuthResult) (net : Nat → NetResult) (e : String)
    (h : validate (some m) = Except.error e) :
    (Send c (some m) blob auth net).1 = [] ∧
    isValidationFailure (Send c (some m) blob auth net).2 = true := by
  rw [send_of_validate_error c (some m) blob auth net e h]
  exact ⟨rfl, rfl⟩

/-- Claim C8: a timeToLive outside [0, 2419200] makes send fail validation
with no network call; the boundary values 0 and 2419200 pass the
validator when the other rules hold; a priority outside the allowed set
(compared exactly) makes send fail validation with no network call. -/
theorem C8_ttl_priority_validation :
    (∀ (c : Client) (m : Message) (blob : String) (auth : String → AuthResult)
        (net : Nat → NetResult),
        m.TimeToLive < 0 ∨ 2419200 < m.TimeToLive →
        (Send c (some m) blob auth net).1 = [] ∧
        isValidationFailure (Send c (some m) blob auth net).2 = true) ∧
    (∀ (m : Message) (x : String) (xs : List String),
        m.RegistrationIDs = some (x :: xs) →
        (x :: xs).length ≤ 1000 →
        (m.TimeToLive = 0 ∨ m.TimeToLive = 2419200) →
        (m.Priority = "" ∨ m.Priority = "high" ∨ m.Priority = "normal") →
        validate (some m) = Except.ok ()) ∧
    (∀ (c : Client) (m : Message) (blob : String) (auth : String → AuthResult)
        (net : Nat → NetResult),
        m.Priority ≠ "" ∧ m.Priority ≠ "high" ∧ m.Priority ≠ "normal" →
        (Send c (some m) blob auth net).1 = [] ∧
        isValidationFailure (Send c (some m) blob auth net).2 = true) := by
  refine ⟨?_, ?_, ?_⟩
  · intro c m blob auth net h
    obtain ⟨e, he⟩ : ∃ e, validate (some m) = Except.error e := by
      cases hids : m.RegistrationIDs with
      | none =>
        exact ⟨"the message\x27s RegistrationIDs field must not be nil",
          by simp only [validate, hids]⟩
      | some ids =>
        simp only [validate, hids]
        split_ifs with h1 h2 h3 h4 <;> try exact ⟨_, rfl⟩
        exfalso
        simp only [maxTimeToLive] at h3
        omega
    exact send_validation_failure c m blob auth net e he
  · intro m x xs hids hlen httl hpri
    simp only [validate, hids]
    split_ifs with h1 h2 h3 h4
    · simp at h1
    · exfalso; simp only [maxRegistrationIDs] at h2; omega
    · exfalso; simp only [maxTimeToLive] at h3; omega
    · exfalso
      simp only [fcmPushPriorityHigh, fcmPushPriorityNormal] at h4
      tauto
    · rfl
  · intro c m blob auth net h
    obtain ⟨e, he⟩ : ∃ e, validate (some m) = Except.error e := by
      cases hids : m.RegistrationIDs with
      | none =>
        exact ⟨"the message\x27s RegistrationIDs field must not be nil",
          by simp only [validate, hids]⟩
      | some ids =>
        simp only [validate, hids]
        split_ifs with h1 h2 h3 h4 <;> try exact ⟨_, rfl⟩
        exfalso
        simp only [fcmPushPriorityHigh, fcmPushPriorityNormal] at h4
        tauto
    exact send_validation_failure c m blob auth net e he

/-- Message with an out-of-range timeToLive for the C8 witness. -/
def w8Bad : Message := ⟨some ["t"], "", ⟨"", "", "", ""⟩, none, false, 2419201, "", "", false⟩

/-- Message at the upper timeToLive boundary for the C8 witness. -/
def w8Edge : Message := ⟨some ["t"], "", ⟨"", "", "", ""⟩, none, false, 2419200, "", "", false⟩

/-- Message with an invalid priority for the C8 witness. -/
def w8Pri : Message := ⟨some ["t"], "", ⟨"", "", "", ""⟩, none, false, 0, "High", "", false⟩

/-- Witness for claim C8 at concrete inputs. -/
theorem C8_witness :
    ((Send ⟨"k", "u"⟩ (some w8Bad) "b" wAuth wNet).1 = [] ∧
     isValidationFailure (Send ⟨"k", "u"⟩ (some w8Bad) "b" wAuth wNet).2 = true) ∧
    validate (some w8Edge) = Except.ok () ∧
    ((Send ⟨"k", "u"⟩ (some w8Pri) "b" wAuth wNet).1 = [] ∧
     isValidationFailure (Send ⟨"k", "u"⟩ (some w8Pri) "b" wAuth wNet).2 = true) :=
  ⟨C8_ttl_priority_validation.1 ⟨"k", "u"⟩ w8Bad "b" wAuth wNet (Or.inr (by decide)),
   C8_ttl_priority_validation.2.1 w8Edge "t" [] rfl (by decide) (Or.inr rfl) (Or.inl rfl),
   C8_ttl_priority_validation.2.2 ⟨"k", "u"⟩ w8Pri "b" wAuth wNet
     ⟨by decide, by decide, by decide⟩⟩

/-- Claim C3: a non-200 status for the target at position k aborts the
loop there: the trace shows the token exchange and exactly (k + 1) POSTs
(one per target up to and including the failing one, none after), and the
call returns the protocol error, so no collected result survives. -/
theorem C3_non200_aborts (c : Client) (m : Message) (ids : List String)
    (blob tok st bd : String) (code k : Nat)
    (auth : String → AuthResult) (net : Nat → NetResult)
    (hval : validate (some m) = Except.ok ())
    (hids : m.RegistrationIDs = some ids)
    (htok : getAcsessToken auth blob = Except.ok tok)
    (hk : k < ids.length)
    (hpre : ∀ j, j < k → delivOkB net j = true)
    (hbad : net k = NetResult.httpResponse code st bd)
    (hcode : code ≠ 200) :
    Send c (some m) blob auth net =
      (Event.tokenExchange blob ::
         (ids.take (k + 1)).map (fun t => Event.post (buildRequest c.URL tok m t)),
       SendOutcome.failed
         (GcmError.protocol ("invalid status code " ++ toString code ++ ": " ++ st))) ∧
    ((ids.take (k + 1)).map (fun t => Event.post (buildRequest c.URL tok m t))).length
      = k + 1 := by
  have hloop := sendLoop_failAt c.URL tok m net k ids 0 hk
    (fun j hj => by simpa using hpre j hj) code st bd (by simpa using hbad) hcode
  constructor
  · rw [Send, hval, send, htok]
    simp only [hids, Option.getD_some, hloop]
  · rw [List.length_map, List.length_take]
    omega

/-- Message with three targets for the C3 and C4 witnesses. -/
def wMsg3 : Message :=
  ⟨some ["A", "B", "C"], "ck", ⟨"T", "B", "CA", "TG"⟩, none, false, 0, "normal", "", false⟩

/-- Transport oracle failing with a 404 on the second request. -/
def w3Net : Nat → NetResult := fun i =>
  if i = 1 then NetResult.httpResponse 404 "404 Not Found" "oops"
  else NetResult.httpResponse 200 "200 OK" wBody

/-- Witness for claim C3 at concrete inputs. -/
theorem C3_witness :
    Send ⟨"k", "u"⟩ (some wMsg3) "b" wAuth w3Net =
      (Event.tokenExchange "b" ::
         ((["A", "B", "C"].take 2).map (fun t => Event.post (buildRequest "u" "tk" wMsg3 t))),
       SendOutcome.failed
         (GcmError.protocol ("invalid status code " ++ toString 404 ++ ": " ++ "404 Not Found"))) ∧
    ((["A", "B", "C"].take 2).map (fun t => Event.post (buildRequest "u" "tk" wMsg3 t))).length
      = 2 :=
  C3_non200_aborts ⟨"k", "u"⟩ wMsg3 ["A", "B", "C"] "b" "tk" "404 Not Found" "oops" 404 1
    wAuth w3Net rfl rfl rfl (by decide) (by decide) rfl (by decide)

/-- Claim C4: in an all-success run the trace is the token exchange
followed by one POST per target in target order (so exactly n POSTs), and
the wire message built for each target carries that target as its token
with collapseKey, data, delayWhileIdle, timeToLive, restrictedPackageName
and dryRun copied verbatim from the legacy message. -/
theorem C4_requests_in_order (c : Client) (m : Message) (ids : List String)
    (blob tok : String) (auth : String → AuthResult) (net : Nat → NetResult)
    (hval : validate (some m) = Except.ok ())
    (hids : m.RegistrationIDs = some ids)
    (htok : getAcsessToken auth blob = Except.ok tok)
    (hnet : ∀ j, j < ids.length → delivOkB net j = true) :
    (Send c (some m) blob auth net).1 =
      Event.tokenExchange blob ::
        ids.map (fun t => Event.post (buildRequest c.URL tok m t)) ∧
    (ids.map (fun t => Event.post (buildRequest c.URL tok m t))).length = ids.length ∧
    ids.map (translate m) =
      ids.map (fun t =>
        MessageV1.mk t m.CollapseKey ⟨m.Notification.Title, m.Notification.Body⟩
          m.Data m.DelayWhileIdle m.TimeToLive
          ⟨⟨m.Notification.ClickAction, m.Notification.Tag⟩, m.Priority⟩
          m.RestrictedPackageName m.DryRun) := by
  have hloop := sendLoop_allOk c.URL tok m net ids 0 (fun j hj => by simpa using hnet j hj)
  refine ⟨?_, by rw [List.length_map], rfl⟩
  rw [Send, hval, send, htok]
  simp only [hids, Option.getD_some, hloop]

/-- Witness for claim C4 at concrete inputs. -/
theorem C4_witness :
    (Send ⟨"k", "u"⟩ (some wMsg3) "b" wAuth wNet).1 =
      Event.tokenExchange "b" ::
        ["A", "B", "C"].map (fun t => Event.post (buildRequest "u" "tk" wMsg3 t)) ∧
    (["A", "B", "C"].map (fun t => Event.post (buildRequest "u" "tk" wMsg3 t))).length = 3 ∧
    ["A", "B", "C"].map (translate wMsg3) =
      ["A", "B", "C"].map (fun t =>
        MessageV1.mk t wMsg3.CollapseKey ⟨wMsg3.Notification.Title, wMsg3.Notification.Body⟩
          wMsg3.Data wMsg3.DelayWhileIdle wMsg3.TimeToLive
          ⟨⟨wMsg3.Notification.ClickAction, wMsg3.Notification.Tag⟩, wMsg3.Priority⟩
          wMsg3.RestrictedPackageName wMsg3.DryRun) :=
  C4_requests_in_order ⟨"k", "u"⟩ wMsg3 ["A", "B", "C"] "b" "tk" wAuth wNet
    rfl rfl rfl (by decide)

/-- Claim C1, amended: in an all-success run the loop collects one decoded
result per target, in order, but send hands the caller only the first
collected result, not the whole list. -/
theorem C1_first_result_only (c : Client) (m : Message) (ids : List String)
    (blob tok : String) (auth : String → AuthResult) (net : Nat → NetResult)
    (hval : validate (some m) = Except.ok ())
    (hids : m.RegistrationIDs = some ids)
    (htok : getAcsessToken auth blob = Except.ok tok)
    (hnet : ∀ j, j < ids.length → delivOkB net j = true) :
    (sendLoop c.URL tok m net ids 0).2 =
      Except.ok (collectedResults net ids.length) ∧
    (collectedResults net ids.length).length = ids.length ∧
    (Send c (some m) blob auth net).2 =
      SendOutcome.returned ((decodedAt net 0).getD ⟨""⟩) := by
  have hloop := sendLoop_allOk c.URL tok m net ids 0 (fun j hj => by simpa using hnet j hj)
  have hcoll : (List.range ids.length).map (fun j => (decodedAt net (0 + j)).getD ⟨""⟩)
      = collectedResults net ids.length := by
    rw [collectedResults]
    apply List.map_congr_left
    intro j _
    rw [Nat.zero_add]
  rw [hcoll] at hloop
  obtain ⟨x, xs, hxs⟩ := validate_ok_ids m hval
  have hxeq : ids = x :: xs := by
    rw [hids] at hxs
    exact Option.some.inj hxs
  subst hxeq
  have hrs : collectedResults net (x :: xs).length
      = (decodedAt net 0).getD ⟨""⟩ ::
        (List.range xs.length).map (fun j => (decodedAt net (j + 1)).getD ⟨""⟩) := by
    rw [collectedResults, List.length_cons, List.range_succ_eq_map, List.map_cons,
      List.map_map]
    rfl
  refine ⟨by rw [hloop], by rw [collectedResults, List.length_map, List.length_range], ?_⟩
  rw [Send, hval, send, htok]
  simp only [hids, Option.getD_some, hloop, hrs]

/-- Message with two targets for the C1 counterexample. -/
def c1Msg : Message := ⟨some ["A", "B"], "", ⟨"", "", "", ""⟩, none, false, 0, "", "", false⟩

/-- Transport oracle for the C1 counterexample, second result r2. -/
def c1Net1 : Nat → NetResult := fun i =>
  if i = 0 then NetResult.httpResponse 200 "200 OK" "\x7b\"name\":\"r1\"\x7d"
  else NetResult.httpResponse 200 "200 OK" "\x7b\"name\":\"r2\"\x7d"

/-- Transport oracle for the C1 counterexample, second result r3. -/
def c1Net2 : Nat → NetResult := fun i =>
  if i = 0 then NetResult.httpResponse 200 "200 OK" "\x7b\"name\":\"r1\"\x7d"
  else NetResult.httpResponse 200 "200 OK" "\x7b\"name\":\"r3\"\x7d"

/-- Counterexample for claim C1 as stated: two all-success runs over two
targets whose second delivery decodes to different results produce the
same return value, which is exactly the first result, so send does not
return one Delivery Result per entry of targets. -/
theorem C1_counterexample :
    decodedAt c1Net1 1 = some ⟨"r2"⟩ ∧
    decodedAt c1Net2 1 = some ⟨"r3"⟩ ∧
    decide (decodedAt c1Net1 1 = decodedAt c1Net2 1) = false ∧
    Send ⟨"k", "u"⟩ (some c1Msg) "b" wAuth c1Net1 =
      Send ⟨"k", "u"⟩ (some c1Msg) "b" wAuth c1Net2 ∧
    (Send ⟨"k", "u"⟩ (some c1Msg) "b" wAuth c1Net1).2 =
      SendOutcome.returned ⟨"r1"⟩ := by
  refine ⟨?_, ?_, ?_, ?_, ?_⟩ <;> decide

/-- Witness for claim C1 (amended) at concrete inputs. -/
theorem C1_witness :
    (sendLoop "u" "tk" wMsg wNet ["tok1"] 0).2 =
      Except.ok (collectedResults wNet 1) ∧
    (collectedResults wNet 1).length = 1 ∧
    (Send ⟨"k", "u"⟩ (some wMsg) "b" wAuth wNet).2 =
      SendOutcome.returned ((decodedAt wNet 0).getD ⟨""⟩) :=
  C1_first_result_only ⟨"k", "u"⟩ wMsg ["tok1"] "b" "tk" wAuth wNet
    rfl rfl rfl (by decide)

/-- The serialized body the single POST of the C2 scenario actually gets:
the android notification keeps its empty click_action and tag fields and
the encoder terminates the JSON with a newline. -/
def c2ActualBody : String :=
  "\x7b\"message\":\x7b\"token\":\"tok1\",\"notification\":\x7b\"title\":\"Hi\",\"body\":\"there\"\x7d,\"android\":\x7b\"notification\":\x7b\"click_action\":\"\",\"tag\":\"\"\x7d,\"priority\":\"high\"\x7d\x7d\x7d\n"

/-- The body the claim states for the C2 scenario. -/
def c2ClaimedBody : String :=
  "\x7b\"message\":\x7b\"token\":\"tok1\",\"notification\":\x7b\"title\":\"Hi\",\"body\":\"there\"\x7d,\"android\":\x7b\"notification\":\x7b\x7d,\"priority\":\"high\"\x7d\x7d\x7d"

set_option maxRecDepth 4000 in
/-- Counterexample for claim C2 as stated: the POST issued for the
scenario message carries c2ActualBody, which differs from the claimed
body both as written and even ignoring the trailing newline, because
click_action and tag are serialized. -/
theorem C2_counterexample :
    (Send ⟨"k", FCMSendEndpoint⟩ (some wMsg) "b" wAuth wNet).1 =
      [Event.tokenExchange "b",
       Event.post ⟨"POST", FCMSendEndpoint, "Bearer tk", "application/json", c2ActualBody⟩] ∧
    decide (c2ActualBody = c2ClaimedBody) = false ∧
    decide (c2ActualBody.dropRight 1 = c2ClaimedBody) = false := by
  refine ⟨?_, ?_, ?_⟩ <;> decide

set_option maxRecDepth 4000 in
/-- Claim C2, amended: the scenario message produces one POST whose body
is the wrapped wire message with the android notification fields
click_action and tag serialized as empty strings and a trailing newline,
and on HTTP 200 with the scenario response body send returns the decoded
result for the single target. -/
theorem C2_scenario :
    Send ⟨"k", FCMSendEndpoint⟩ (some wMsg) "b" wAuth wNet =
      ([Event.tokenExchange "b",
        Event.post ⟨"POST", FCMSendEndpoint, "Bearer tk", "application/json", c2ActualBody⟩],
       SendOutcome.returned ⟨"projects/x/messages/1"⟩) := by
  decide

/-- Claim C10: Send never hits the responses[0] index-out-of-range fault:
every call either returns a result (success path, the first collected
response with no error) or an error (failure path, no result) — validation
guarantees at least one target, so a fully successful loop collects a
non-empty slice. -/
theorem C10_no_index_panic :
    ∀ (c : Client) (om : Option Message) (blob : String) (auth : String → AuthResult)
      (net : Nat → NetResult),
      (∃ r, (Send c om blob auth net).2 = SendOutcome.returned r) ∨
      (∃ e, (Send c om blob auth net).2 = SendOutcome.failed e) := by
  intro c om blob auth net
  cases om with
  | none => exact Or.inr ⟨_, rfl⟩
  | some m =>
    cases hv : validate (some m) with
    | error e =>
      right
      rw [send_of_validate_error c (some m) blob auth net e hv]
      exact ⟨_, rfl⟩
    | ok u =>
      cases u
      obtain ⟨x, xs, hxs⟩ := validate_ok_ids m hv
      rw [Send, hv, send]
      cases ha : getAcsessToken auth blob with
      | error e => simp only [ha]; exact Or.inr ⟨_, rfl⟩
      | ok tok =>
        simp only [ha, hxs, Option.getD_some]
        cases hres : (sendLoop c.URL tok m net (x :: xs) 0).2 with
        | error e => simp only [hres]; exact Or.inr ⟨_, rfl⟩
        | ok rs =>
          cases rs with
          | nil => exact absurd rfl (sendLoop_ok_ne_nil c.URL tok m net x xs 0 [] hres)
          | cons r rs2 => simp only [hres]; exact Or.inl ⟨_, rfl⟩

end Gcm
